import Mathlib

/-!
Verification of the fixed-point arithmetic core (`src/fixed.rs`) of the
`integrator` repository.

The Rust code stores a fixed-point number as a signed 64-bit integer
(`Fixed(pub i64)`), interpreted as `value = stored / FIXED_DECIMAL` with
`FIXED_DECIMAL = 100000`.  Arithmetic widens both operands to a signed
128-bit intermediate (`FullFixed(pub i128)`) carrying one extra decimal
digit of precision (`FULL_FIXED_PRECISION_MULTIPLIER = 10`), computes
there, and narrows back with a plain `as i64` cast.

Shallow embedding conventions:
* machine integers are modelled as `Int`;
* the Rust `as i64` / release-profile overflow behaviour is the two's
  complement wrap, modelled by `wrap64` / `wrap128` (an `as` cast in Rust
  always wraps; `+`, `*`, unary `-`, `abs` wrap in release builds and
  panic in debug builds — where a theorem depends on a wrap we note it);
* Rust's `/` on `i128` truncates toward zero, modelled by `Int.tdiv`;
* Rust's `/` panics on a zero divisor in every profile; this fallible
  division is modelled with `Option`, `none` standing for the
  division-by-zero panic (the DivisionByZero condition).
-/

namespace Integrator

/-- Constant `FULL_FIXED_PRECISION_MULTIPLIER: FullInt = 10` from `src/fixed.rs`. -/
def FULL_FIXED_PRECISION_MULTIPLIER : Int := 10

/-- Constant `FIXED_DECIMAL: FullInt = 100000` from `src/fixed.rs`. -/
def FIXED_DECIMAL : Int := 100000

/-- Constant `FULL_FIXED_DECIMAL = FIXED_DECIMAL * FULL_FIXED_PRECISION_MULTIPLIER`. -/
def FULL_FIXED_DECIMAL : Int := FIXED_DECIMAL * FULL_FIXED_PRECISION_MULTIPLIER

/-- Smallest value of the Rust `i64` type. -/
def i64Min : Int := -9223372036854775808

/-- Largest value of the Rust `i64` type. -/
def i64Max : Int := 9223372036854775807

/-- Smallest value of the Rust `i128` type. -/
def i128Min : Int := -170141183460469231731687303715884105728

/-- Largest value of the Rust `i128` type. -/
def i128Max : Int := 170141183460469231731687303715884105727

/-- Two's complement wrap into the `i64` range: the semantics of a Rust
`as i64` cast, and of `i64` arithmetic overflow in release builds. -/
def wrap64 (x : Int) : Int :=
  (x + 9223372036854775808) % 18446744073709551616 - 9223372036854775808

/-- Two's complement wrap into the `i128` range: the semantics of `i128`
arithmetic overflow in release builds. -/
def wrap128 (x : Int) : Int :=
  (x + 170141183460469231731687303715884105728) %
    340282366920938463463374607431768211456 -
    170141183460469231731687303715884105728

/-- The public fixed-point type: `pub struct Fixed(pub Int)` with `Int = i64`.
`val` models the stored integer `self.0`. -/
structure Fixed where
  val : Int
deriving DecidableEq

/-- The internal wide accumulator: `pub(crate) struct FullFixed(pub FullInt)`
with `FullInt = i128`. -/
structure FullFixed where
  val : Int
deriving DecidableEq

/-- `impl From<&Fixed> for FullFixed`:
`FullFixed(value.0 as i128 * FULL_FIXED_PRECISION_MULTIPLIER)`.
The `i64` to `i128` cast is exact and the product of an `i64` by 10 cannot
overflow `i128`, so no wrap is involved. -/
def FullFixed.ofFixed (a : Fixed) : FullFixed :=
  ⟨a.val * FULL_FIXED_PRECISION_MULTIPLIER⟩

/-- `impl From<FullFixed> for Fixed`:
`Fixed((value.0 / FULL_FIXED_PRECISION_MULTIPLIER) as Int)`.
The `i128` division truncates toward zero (`Int.tdiv`) and the `as i64`
cast wraps with no overflow check (`wrap64`). -/
def Fixed.ofFullFixed (v : FullFixed) : Fixed :=
  ⟨wrap64 (v.val.tdiv FULL_FIXED_PRECISION_MULTIPLIER)⟩

/-- `impl From<i64> for Fixed`: `Self((value as FullInt * FIXED_DECIMAL) as Int)`.
The multiplication happens in `i128` (no overflow possible for an `i64`
input), then the `as i64` cast wraps. -/
def Fixed.fromInt (n : Int) : Fixed :=
  ⟨wrap64 (n * FIXED_DECIMAL)⟩

/-- `fullfixed_binop!(FullFixed, FullFixed, add, Add)`: plain `i128` addition. -/
def FullFixed.add (a b : FullFixed) : FullFixed :=
  ⟨wrap128 (a.val + b.val)⟩

/-- `fullfixed_binop!(FullFixed, FullFixed, sub, Sub)`: plain `i128` subtraction. -/
def FullFixed.sub (a b : FullFixed) : FullFixed :=
  ⟨wrap128 (a.val - b.val)⟩

/-- `impl Mul for FullFixed`:
`Self(FullInt::div(FullInt::mul(self.0, rhs.0), FULL_FIXED_DECIMAL))`. -/
def FullFixed.mul (a b : FullFixed) : FullFixed :=
  ⟨(wrap128 (a.val * b.val)).tdiv FULL_FIXED_DECIMAL⟩

/-- `impl Div for FullFixed`:
`Self(FullInt::div(FullInt::mul(self.0, FULL_FIXED_DECIMAL), rhs.0))`.
`FullInt::div` panics (DivisionByZero condition) when `rhs.0 == 0`,
modelled by `none`. -/
def FullFixed.div (a b : FullFixed) : Option FullFixed :=
  if b.val = 0 then none
  else some ⟨(wrap128 (a.val * FULL_FIXED_DECIMAL)).tdiv b.val⟩

/-- `fixed_binop!(Fixed, Fixed, add, Add)`: widen both operands, add in
`FullFixed`, narrow back. -/
def Fixed.add (a b : Fixed) : Fixed :=
  Fixed.ofFullFixed (FullFixed.add (FullFixed.ofFixed a) (FullFixed.ofFixed b))

/-- `fixed_binop!(Fixed, Fixed, sub, Sub)`: widen both operands, subtract in
`FullFixed`, narrow back. -/
def Fixed.sub (a b : Fixed) : Fixed :=
  Fixed.ofFullFixed (FullFixed.sub (FullFixed.ofFixed a) (FullFixed.ofFixed b))

/-- `fixed_binop!(Fixed, Fixed, mul, Mul)`: widen both operands, multiply in
`FullFixed`, narrow back. -/
def Fixed.mul (a b : Fixed) : Fixed :=
  Fixed.ofFullFixed (FullFixed.mul (FullFixed.ofFixed a) (FullFixed.ofFixed b))

/-- `fixed_binop!(Fixed, Fixed, div, Div)`: widen both operands, divide in
`FullFixed` (fallible), narrow back. -/
def Fixed.div (a b : Fixed) : Option Fixed :=
  Option.map Fixed.ofFullFixed
    (FullFixed.div (FullFixed.ofFixed a) (FullFixed.ofFixed b))

/-- `impl Neg for Fixed`: `Self(-self.0)`.  Negating `i64::MIN` overflows:
release builds wrap (modelled), debug builds panic. -/
def Fixed.neg (a : Fixed) : Fixed :=
  ⟨wrap64 (-a.val)⟩

/-- `Fixed::abs`: `Self(self.0.abs())`.  `i64::abs` of `i64::MIN` overflows:
release builds return `i64::MIN` (the wrap, modelled), debug builds panic. -/
def Fixed.abs (a : Fixed) : Fixed :=
  ⟨wrap64 |a.val|⟩

/-- `Fixed::powi`: `Self(Int::pow(self.0, exp.unsigned_abs()))` — an integer
power of the raw stored value, with no fixed-point rescaling.  Overflow in
the repeated `i64` multiplication wraps in release builds; wrapping every
step is the same as wrapping the exact power once at the end. -/
def Fixed.powi (a : Fixed) (exp : Int) : Fixed :=
  ⟨wrap64 (a.val ^ exp.natAbs)⟩

/-- `Fixed::signum`: returns `Fixed(FIXED_DECIMAL)` when `self.0 >= 0` and
`Fixed(-FIXED_DECIMAL)` otherwise. -/
def Fixed.signum (a : Fixed) : Fixed :=
  if 0 ≤ a.val then ⟨FIXED_DECIMAL⟩ else ⟨-FIXED_DECIMAL⟩

/-- `impl Approximately for Fixed`:
`i64::abs(self.0 - other.into().0) <= e` where `e` is the stored integer of
the epsilon converted to `Fixed`.  The float-to-`Fixed` conversion of the
epsilon argument happens before this comparison; here `e` is that already
converted `Fixed` value.  The `i64` subtraction and `i64::abs` wrap on
overflow in release builds (modelled; debug builds panic there). -/
def Fixed.approximately (a b e : Fixed) : Bool :=
  decide (wrap64 |wrap64 (a.val - b.val)| ≤ e.val)

/-! General lemmas about the wrapping casts. -/

/-- A value already inside the `i64` range is unchanged by the wrap. -/
theorem wrap64_eq_self {x : Int} (h1 : i64Min ≤ x) (h2 : x ≤ i64Max) :
    wrap64 x = x := by
  unfold i64Min at h1
  unfold i64Max at h2
  unfold wrap64
  omega

/-- A value already inside the `i128` range is unchanged by the wrap. -/
theorem wrap128_eq_self {x : Int} (h1 : i128Min ≤ x) (h2 : x ≤ i128Max) :
    wrap128 x = x := by
  unfold i128Min at h1
  unfold i128Max at h2
  unfold wrap128
  omega

/-- Two `Fixed` values with equal stored integers are equal. -/
theorem Fixed.val_injective {a b : Fixed} (h : a.val = b.val) : a = b := by
  cases a
  cases b
  simpa using h

/-! Claim theorems. -/

/-- C1: the claim asserts that for all `Fixed` inputs the intermediate
product `FullFixed::from(a).0 * FullFixed::from(b).0` of fixed-point
multiplication stays within the `i128` range.  Evaluating that intermediate
at the failing input `a = b = Fixed(i64::MAX)` shows it exceeds `i128::MAX`:
the contract "no arithmetic performed entirely in `WideScalar` may overflow"
is violated by the code (the spec states the contract; the code is the slip). -/
theorem C1_wide_mul_intermediate_overflows_i128 :
    i128Max < (FullFixed.ofFixed ⟨i64Max⟩).val * (FullFixed.ofFixed ⟨i64Max⟩).val := by
  decide

/-- C2: the claim asserts that narrowing a `FullFixed` result back to `Fixed`
detects overflow and raises an Overflow condition.  The code narrows with a
bare `as i64` cast, which silently wraps: multiplying
`Fixed::from(10^11)` by itself (stored integers `10^16`, wide arithmetic
well inside `i128`) should give stored value `10^27`, but the narrowing
silently wraps it to a negative number, and no error channel exists
(`Fixed.mul` is total). -/
theorem C2_narrowing_wraps_silently :
    (Fixed.fromInt 100000000000).val = 10000000000000000 ∧
    (Fixed.mul (Fixed.fromInt 100000000000) (Fixed.fromInt 100000000000)).val =
      -6930898827444486144 ∧
    (Fixed.mul (Fixed.fromInt 100000000000) (Fixed.fromInt 100000000000)).val < 0 := by
  decide

/-- C3: the claim asserts `Fixed::powi(a, exp)` equals `|exp|`-fold repeated
`Fixed` multiplication, so in particular `a.powi(2) == a * a`.  The code
instead computes `Int::pow` of the raw stored integer with no rescaling:
at `a = Fixed::from(1)` (stored `100000`), `a.powi(2)` stores `10^10`
while `a * a` stores `100000`. -/
theorem C3_powi_is_not_repeated_fixed_mul :
    Fixed.powi (Fixed.fromInt 1) 2 = ⟨10000000000⟩ ∧
    Fixed.mul (Fixed.fromInt 1) (Fixed.fromInt 1) = ⟨100000⟩ ∧
    Fixed.powi (Fixed.fromInt 1) 2 ≠ Fixed.mul (Fixed.fromInt 1) (Fixed.fromInt 1) := by
  decide

/-- C10: `Fixed::signum` is total and never zero: it returns exactly the
SCALE-scaled representation of `+1.0` (stored `100000`, i.e.
`Fixed::from(1)`) precisely when the stored value is nonnegative —
including zero — and exactly the representation of `-1.0` (stored
`-100000`) precisely when the stored value is negative. -/
theorem C10_signum_total_never_zero (a : Fixed) :
    (Fixed.signum a = Fixed.fromInt 1 ↔ 0 ≤ a.val) ∧
    (Fixed.signum a = Fixed.fromInt (-1) ↔ a.val < 0) ∧
    (Fixed.signum a).val ≠ 0 := by
  unfold Fixed.signum
  by_cases h : 0 ≤ a.val
  · rw [if_pos h]
    refine ⟨⟨fun _ => h, fun _ => by decide⟩, ⟨fun hc => ?_, fun hc => absurd h (by omega)⟩, by decide⟩
    exact absurd (congrArg Fixed.val hc) (by decide)
  · rw [if_neg h]
    refine ⟨⟨fun hc => ?_, fun hp => absurd hp h⟩, ⟨fun _ => by omega, fun _ => by decide⟩, by decide⟩
    exact absurd (congrArg Fixed.val hc) (by decide)

/-- Floor division composes: dividing by `m` and then by `n` is dividing by
`m * n`, for positive divisors. -/
theorem ediv_ediv_of_pos {m n : Int} (x : Int) (hm : 0 < m) (hn : 0 < n) :
    x / m / n = x / (m * n) := by
  have hmn : 0 < m * n := mul_pos hm hn
  have h1 : x / m / n ≤ x / (m * n) := by
    rw [Int.le_ediv_iff_mul_le hmn]
    calc x / m / n * (m * n) = x / m / n * n * m := by ring
    _ ≤ x / m * m :=
        mul_le_mul_of_nonneg_right (Int.ediv_mul_le (x / m) (by omega)) (by omega)
    _ ≤ x := Int.ediv_mul_le x (by omega)
  have h2 : x / (m * n) < x / m / n + 1 := by
    rw [Int.ediv_lt_iff_lt_mul hmn]
    have step : x / m + 1 ≤ (x / m / n + 1) * n := by
      have := Int.lt_ediv_add_one_mul_self (x / m) hn
      omega
    calc x < (x / m + 1) * m := Int.lt_ediv_add_one_mul_self x hm
    _ ≤ (x / m / n + 1) * n * m := mul_le_mul_of_nonneg_right step (by omega)
    _ = (x / m / n + 1) * (m * n) := by ring
  omega

/-- The value of a narrowed `Fixed` addition is the wrapped exact sum, for
`i64`-valid operands (the wide intermediates never overflow `i128`). -/
theorem Fixed.add_val (a b : Fixed)
    (ha1 : i64Min ≤ a.val) (ha2 : a.val ≤ i64Max)
    (hb1 : i64Min ≤ b.val) (hb2 : b.val ≤ i64Max) :
    (Fixed.add a b).val = wrap64 (a.val + b.val) := by
  unfold Fixed.add Fixed.ofFullFixed FullFixed.add FullFixed.ofFixed
  unfold FULL_FIXED_PRECISION_MULTIPLIER
  dsimp only
  have hsum : a.val * 10 + b.val * 10 = 10 * (a.val + b.val) := by ring
  rw [hsum]
  have hw : wrap128 (10 * (a.val + b.val)) = 10 * (a.val + b.val) := by
    apply wrap128_eq_self
    · unfold i128Min
      unfold i64Min at ha1 hb1
      omega
    · unfold i128Max
      unfold i64Max at ha2 hb2
      omega
  rw [hw, Int.mul_tdiv_cancel_left _ (by norm_num)]

/-- The value of a narrowed `Fixed` subtraction is the wrapped exact
difference, for `i64`-valid operands. -/
theorem Fixed.sub_val (a b : Fixed)
    (ha1 : i64Min ≤ a.val) (ha2 : a.val ≤ i64Max)
    (hb1 : i64Min ≤ b.val) (hb2 : b.val ≤ i64Max) :
    (Fixed.sub a b).val = wrap64 (a.val - b.val) := by
  unfold Fixed.sub Fixed.ofFullFixed FullFixed.sub FullFixed.ofFixed
  unfold FULL_FIXED_PRECISION_MULTIPLIER
  dsimp only
  have hdiff : a.val * 10 - b.val * 10 = 10 * (a.val - b.val) := by ring
  rw [hdiff]
  have hw : wrap128 (10 * (a.val - b.val)) = 10 * (a.val - b.val) := by
    apply wrap128_eq_self
    · unfold i128Min
      unfold i64Min at ha1 hb1
      unfold i64Max at ha2 hb2
      omega
    · unfold i128Max
      unfold i64Min at ha1 hb1
      unfold i64Max at ha2 hb2
      omega
  rw [hw, Int.mul_tdiv_cancel_left _ (by norm_num)]

/-- C4: for every `Fixed` dividend `a` and every `Fixed` divisor `b` whose
stored integer is zero (so the widened divisor `b_wide` is also zero),
division raises the DivisionByZero condition (`none`, modelling the Rust
panic of `FullInt::div` on a zero divisor) and never produces a value. -/
theorem C4_div_by_zero_raises (a b : Fixed) (h : b.val = 0) :
    Fixed.div a b = none := by
  unfold Fixed.div FullFixed.div FullFixed.ofFixed
  dsimp only
  rw [h]
  norm_num

/-- C4 witness: `Fixed::from(5i64) / Fixed::from(0i64)` raises DivisionByZero. -/
theorem C4_witness :
    (Fixed.fromInt 0).val = 0 ∧
    Fixed.div (Fixed.fromInt 5) (Fixed.fromInt 0) = none :=
  ⟨by decide, C4_div_by_zero_raises (Fixed.fromInt 5) (Fixed.fromInt 0) (by decide)⟩

/-- C5: when the exact product of two `Fixed` values is representable
(`FIXED_DECIMAL` divides the product of stored integers and the exact
quotient fits in `i64`), fixed-point multiplication — widen, compute
`(a_wide * b_wide) / extended_scale` with truncation toward zero, narrow by
removing the extra precision factor — returns exactly the true product:
the stored result is `a.0 * b.0 / FIXED_DECIMAL` with no drift. -/
theorem C5_mul_exact_when_representable (a b : Fixed)
    (hdvd : FIXED_DECIMAL ∣ a.val * b.val)
    (hlo : i64Min ≤ a.val * b.val / FIXED_DECIMAL)
    (hhi : a.val * b.val / FIXED_DECIMAL ≤ i64Max) :
    (Fixed.mul a b).val = a.val * b.val / FIXED_DECIMAL := by
  obtain ⟨q, hq⟩ := hdvd
  have hquot : a.val * b.val / FIXED_DECIMAL = q := by
    rw [hq]
    exact Int.mul_ediv_cancel_left q (by unfold FIXED_DECIMAL; norm_num)
  rw [hquot] at hlo hhi ⊢
  unfold Fixed.mul Fixed.ofFullFixed FullFixed.mul FullFixed.ofFixed
  dsimp only
  have hprod :
      a.val * FULL_FIXED_PRECISION_MULTIPLIER * (b.val * FULL_FIXED_PRECISION_MULTIPLIER) =
        1000000 * (10 * q) := by
    have h100 :
        a.val * FULL_FIXED_PRECISION_MULTIPLIER * (b.val * FULL_FIXED_PRECISION_MULTIPLIER) =
          100 * (a.val * b.val) := by
      unfold FULL_FIXED_PRECISION_MULTIPLIER
      ring
    rw [h100, hq]
    unfold FIXED_DECIMAL
    ring
  rw [hprod]
  have hw : wrap128 (1000000 * (10 * q)) = 1000000 * (10 * q) := by
    apply wrap128_eq_self
    · unfold i128Min
      unfold i64Min at hlo
      omega
    · unfold i128Max
      unfold i64Max at hhi
      omega
  rw [hw]
  have h1 : (1000000 * (10 * q)).tdiv FULL_FIXED_DECIMAL = 10 * q := by
    unfold FULL_FIXED_DECIMAL FIXED_DECIMAL FULL_FIXED_PRECISION_MULTIPLIER
    norm_num
  rw [h1]
  have h2 : (10 * q).tdiv FULL_FIXED_PRECISION_MULTIPLIER = q := by
    unfold FULL_FIXED_PRECISION_MULTIPLIER
    exact Int.mul_tdiv_cancel_left _ (by norm_num)
  rw [h2]
  exact wrap64_eq_self hlo hhi

/-- C5 witness: `Fixed::from(2) * Fixed::from(3) == Fixed::from(6)` exactly
(stored integers `200000 * 300000 / 100000 = 600000`). -/
theorem C5_witness :
    (FIXED_DECIMAL ∣ (Fixed.fromInt 2).val * (Fixed.fromInt 3).val) ∧
    i64Min ≤ (Fixed.fromInt 2).val * (Fixed.fromInt 3).val / FIXED_DECIMAL ∧
    (Fixed.fromInt 2).val * (Fixed.fromInt 3).val / FIXED_DECIMAL ≤ i64Max ∧
    (Fixed.mul (Fixed.fromInt 2) (Fixed.fromInt 3)).val =
      (Fixed.fromInt 2).val * (Fixed.fromInt 3).val / FIXED_DECIMAL ∧
    Fixed.mul (Fixed.fromInt 2) (Fixed.fromInt 3) = Fixed.fromInt 6 := by
  refine ⟨by decide, by decide, by decide, ?_, by decide⟩
  exact C5_mul_exact_when_representable (Fixed.fromInt 2) (Fixed.fromInt 3)
    (by decide) (by decide) (by decide)

/-- C6: fixed-point addition and subtraction are exact whenever the exact
sum (respectively difference) of stored integers stays in the `i64` range;
consequently `a + Fixed::from(0)` is `a` for every valid `a`, and
`a + (-a)` is `Fixed(0)` for every valid `a` except the most-negative
stored value. -/
theorem C6_add_sub_exact (a b : Fixed)
    (ha1 : i64Min ≤ a.val) (ha2 : a.val ≤ i64Max)
    (hb1 : i64Min ≤ b.val) (hb2 : b.val ≤ i64Max) :
    (i64Min ≤ a.val + b.val → a.val + b.val ≤ i64Max →
      (Fixed.add a b).val = a.val + b.val) ∧
    (i64Min ≤ a.val - b.val → a.val - b.val ≤ i64Max →
      (Fixed.sub a b).val = a.val - b.val) ∧
    Fixed.add a (Fixed.fromInt 0) = a ∧
    (a.val ≠ i64Min → Fixed.add a (Fixed.neg a) = ⟨0⟩) := by
  refine ⟨fun hs1 hs2 => ?_, fun hd1 hd2 => ?_, ?_, fun hmin => ?_⟩
  · rw [Fixed.add_val a b ha1 ha2 hb1 hb2]
    exact wrap64_eq_self hs1 hs2
  · rw [Fixed.sub_val a b ha1 ha2 hb1 hb2]
    exact wrap64_eq_self hd1 hd2
  · apply Fixed.val_injective
    have h0 : (Fixed.fromInt 0).val = 0 := by decide
    rw [Fixed.add_val a (Fixed.fromInt 0) ha1 ha2 (by rw [h0]; decide) (by rw [h0]; decide)]
    rw [h0, add_zero]
    exact wrap64_eq_self ha1 ha2
  · apply Fixed.val_injective
    have hnv : (Fixed.neg a).val = -a.val := by
      unfold Fixed.neg
      dsimp only
      apply wrap64_eq_self
      · unfold i64Min
        unfold i64Max at ha2
        omega
      · unfold i64Max
        unfold i64Min at ha1 hmin
        omega
    rw [Fixed.add_val a (Fixed.neg a)
      ha1 ha2
      (by rw [hnv]; unfold i64Min at *; unfold i64Max at *; omega)
      (by rw [hnv]; unfold i64Min at *; unfold i64Max at *; omega)]
    rw [hnv, add_neg_cancel]
    decide

/-- C6 witness: `14 + 16 = 30`, `10 - 20 = -10`, `14 + 0 = 14`, and
`14 + (-14) = 0` on concrete `Fixed` values. -/
theorem C6_witness :
    (i64Min ≤ (1400000 : Int) ∧ (1400000 : Int) ≤ i64Max ∧
      i64Min ≤ (1600000 : Int) ∧ (1600000 : Int) ≤ i64Max) ∧
    ((i64Min ≤ (1400000 : Int) + 1600000 → (1400000 : Int) + 1600000 ≤ i64Max →
        (Fixed.add ⟨1400000⟩ ⟨1600000⟩).val = 1400000 + 1600000) ∧
      (i64Min ≤ (1400000 : Int) - 1600000 → (1400000 : Int) - 1600000 ≤ i64Max →
        (Fixed.sub ⟨1400000⟩ ⟨1600000⟩).val = 1400000 - 1600000) ∧
      Fixed.add ⟨1400000⟩ (Fixed.fromInt 0) = ⟨1400000⟩ ∧
      ((1400000 : Int) ≠ i64Min → Fixed.add ⟨1400000⟩ (Fixed.neg ⟨1400000⟩) = ⟨0⟩)) :=
  ⟨by decide,
    C6_add_sub_exact ⟨1400000⟩ ⟨1600000⟩ (by decide) (by decide) (by decide) (by decide)⟩

/-- C8: the claim requires that negation and `abs` at the most-negative
stored value `i64::MIN` be explicitly guarded and fail loudly, never
silently producing a wrapped result.  The code has no guard: `Neg` is
`Self(-self.0)` and `abs` is `Self(self.0.abs())`, so in a release build
both silently return `i64::MIN` itself — an incorrect wrapped result that
is still negative.  (For every other value both operations are exact; the
failure is the unguarded edge case.) -/
theorem C8_min_negation_wraps_silently :
    Fixed.neg ⟨i64Min⟩ = ⟨i64Min⟩ ∧
    Fixed.abs ⟨i64Min⟩ = ⟨i64Min⟩ ∧
    (i64Min : Int) < 0 ∧ (i64Min : Int) ≠ -i64Min := by
  decide

/-- Negation and `abs` are exact on the stored integer for every valid value
other than `i64::MIN` (the correct part of C8, kept for reference by the
development; the claim itself fails on the unguarded edge case). -/
theorem Fixed.neg_abs_exact_away_from_min (a : Fixed)
    (ha1 : i64Min ≤ a.val) (ha2 : a.val ≤ i64Max) (hmin : a.val ≠ i64Min) :
    (Fixed.neg a).val = -a.val ∧ (Fixed.abs a).val = |a.val| := by
  constructor
  · unfold Fixed.neg
    dsimp only
    apply wrap64_eq_self
    · unfold i64Min
      unfold i64Max at ha2
      omega
    · unfold i64Max
      unfold i64Min at ha1 hmin
      omega
  · unfold Fixed.abs
    dsimp only
    apply wrap64_eq_self
    · unfold i64Min
      have := abs_nonneg a.val
      omega
    · unfold i64Max
      unfold i64Min at ha1 hmin
      unfold i64Max at ha2
      rcases abs_cases a.val with ⟨h, _⟩ | ⟨h, _⟩ <;> omega

/-- C9 counterexample: the claim states `approximately` returns true iff
`|a.0 - b.0| <= epsilon.0` for all `Fixed` inputs.  At
`a.0 = i64::MAX`, `b.0 = -2`, `epsilon.0 = i64::MAX` (an epsilon stored
value reachable from a large float argument via the saturating cast), the
`i64` subtraction `a.0 - b.0` wraps, and the code returns `true` although
the true difference `2^63 + 1` exceeds the epsilon. -/
theorem C9_approximately_wrap_counterexample :
    Fixed.approximately ⟨9223372036854775807⟩ ⟨-2⟩ ⟨9223372036854775807⟩ = true ∧
    ¬(|(9223372036854775807 : Int) - (-2)| ≤ (9223372036854775807 : Int)) := by
  decide

/-- C9 amended: `Fixed` equality holds iff the stored integers are
identical, and `approximately` returns true iff `|a.0 - b.0| <= epsilon.0`
— provided the difference of stored integers fits in `i64` (otherwise the
`i64` subtraction inside the comparison wraps and the comparison is made
against the wrapped difference instead). -/
theorem C9_eq_bitwise_approximately_epsilon (a b e : Fixed)
    (h : |a.val - b.val| ≤ i64Max) :
    (a = b ↔ a.val = b.val) ∧
    (Fixed.approximately a b e = true ↔ |a.val - b.val| ≤ e.val) := by
  constructor
  · exact ⟨congrArg Fixed.val, Fixed.val_injective⟩
  · unfold Fixed.approximately
    have habs := abs_le.mp h
    have hd1 : i64Min ≤ a.val - b.val := by
      unfold i64Min
      unfold i64Max at habs
      omega
    have hd2 : a.val - b.val ≤ i64Max := habs.2
    rw [wrap64_eq_self hd1 hd2]
    have ha1 : i64Min ≤ |a.val - b.val| := by
      unfold i64Min
      have := abs_nonneg (a.val - b.val)
      omega
    rw [wrap64_eq_self ha1 h]
    exact decide_eq_true_iff

/-- C9 witness: at stored values `100`, `50` with epsilon stored `60`, the
difference is representable and the characterization holds. -/
theorem C9_witness :
    |(100 : Int) - 50| ≤ i64Max ∧
    (((⟨100⟩ : Fixed) = ⟨50⟩) ↔ ((100 : Int) = 50)) ∧
    (Fixed.approximately ⟨100⟩ ⟨50⟩ ⟨60⟩ = true ↔ |(100 : Int) - 50| ≤ (60 : Int)) :=
  ⟨by decide, C9_eq_bitwise_approximately_epsilon ⟨100⟩ ⟨50⟩ ⟨60⟩ (by decide)⟩

/-- C7 counterexample: the claim bounds `|((a / b) * b).0 - a.0|` by `1` for
all positive `a`, `b`.  At `a = Fixed(5)` (value `0.00005`) and
`b = Fixed(10^10)` (value `100000.0`) the truncating division underflows to
zero, and the round trip lands `5` units in the last place away from `a`. -/
theorem C7_roundtrip_counterexample :
    (0 : Int) < 5 ∧ (0 : Int) < 10000000000 ∧
    Fixed.div ⟨5⟩ ⟨10000000000⟩ = some ⟨0⟩ ∧
    Fixed.mul ⟨0⟩ ⟨10000000000⟩ = ⟨0⟩ ∧
    ¬(|(Fixed.mul ⟨0⟩ ⟨10000000000⟩).val - (5 : Int)| ≤ 1) := by
  decide

/-- C7 amended: for positive `a`, `b` with `b` at most one
(`b.0 <= FIXED_DECIMAL`) and the quotient representable
(`a.0 * FIXED_DECIMAL <= i64::MAX * b.0`), the round trip `(a / b) * b`
is within one unit in the last place of `a`, and never above `a`:
`0 <= a.0 - ((a / b) * b).0 <= 1`. -/
theorem C7_roundtrip_within_one_ulp (a b : Fixed)
    (ha : 0 < a.val) (hamax : a.val ≤ i64Max)
    (hb : 0 < b.val) (hbS : b.val ≤ FIXED_DECIMAL)
    (hq : a.val * FIXED_DECIMAL ≤ i64Max * b.val) :
    ∃ q : Fixed, Fixed.div a b = some q ∧
      (Fixed.mul q b).val ≤ a.val ∧ a.val - (Fixed.mul q b).val ≤ 1 := by
  unfold FIXED_DECIMAL at hbS hq
  unfold i64Max at hamax hq
  have hBw : b.val * FULL_FIXED_PRECISION_MULTIPLIER ≠ 0 := by
    unfold FULL_FIXED_PRECISION_MULTIPLIER
    omega
  set Q := a.val * 100000 / b.val with hQdef
  have hQ0 : 0 ≤ Q := Int.ediv_nonneg (by positivity) (by omega)
  have hQmax : Q ≤ 9223372036854775807 := by
    have h1 : a.val * 100000 / b.val ≤ 9223372036854775807 * b.val / b.val :=
      Int.ediv_le_ediv hb hq
    rwa [Int.mul_ediv_cancel _ (by omega)] at h1
  have hQB_le : Q * b.val ≤ a.val * 100000 := by
    rw [hQdef]
    exact Int.ediv_mul_le _ (by omega)
  have hQB_gt : a.val * 100000 < (Q + 1) * b.val := by
    rw [hQdef]
    exact Int.lt_ediv_add_one_mul_self _ hb
  have hQBnn : 0 ≤ Q * b.val := mul_nonneg hQ0 (by omega)
  have hQBmax : Q * b.val ≤ 922337203685477580700000 := by
    have : a.val * 100000 ≤ 922337203685477580700000 := by omega
    omega
  set R := Q * b.val / 100000 with hRdef
  have hR0 : 0 ≤ R := Int.ediv_nonneg hQBnn (by norm_num)
  have hR_le : R * 100000 ≤ Q * b.val := by
    rw [hRdef]
    exact Int.ediv_mul_le _ (by norm_num)
  have hR_gt : Q * b.val < (R + 1) * 100000 := by
    rw [hRdef]
    exact Int.lt_ediv_add_one_mul_self _ (by norm_num)
  have hexp1 : (Q + 1) * b.val = Q * b.val + b.val := by ring
  have hexp2 : (R + 1) * 100000 = R * 100000 + 100000 := by ring
  have hRa : R ≤ a.val := by
    rw [hexp2] at hR_gt
    omega
  have hRa1 : a.val - R ≤ 1 := by
    rw [hexp1] at hQB_gt
    rw [hexp2] at hR_gt
    omega
  have hdivval : Fixed.div a b = some ⟨Q⟩ := by
    unfold Fixed.div FullFixed.div Fixed.ofFullFixed FullFixed.ofFixed
    dsimp only
    rw [if_neg hBw]
    dsimp only [Option.map]
    have hx : wrap128 (a.val * FULL_FIXED_PRECISION_MULTIPLIER * FULL_FIXED_DECIMAL) =
        a.val * 10000000 := by
      unfold FULL_FIXED_DECIMAL FIXED_DECIMAL FULL_FIXED_PRECISION_MULTIPLIER
      have e : a.val * 10 * (100000 * 10) = a.val * 10000000 := by ring
      rw [e]
      apply wrap128_eq_self
      · unfold i128Min
        omega
      · unfold i128Max
        omega
    rw [hx]
    have hq1 : (a.val * 10000000).tdiv (b.val * FULL_FIXED_PRECISION_MULTIPLIER) =
        a.val * 1000000 / b.val := by
      unfold FULL_FIXED_PRECISION_MULTIPLIER
      rw [Int.tdiv_eq_ediv (by positivity) (by omega)]
      have e1 : a.val * 10000000 = 10 * (a.val * 1000000) := by ring
      have e2 : b.val * 10 = 10 * b.val := by ring
      rw [e1, e2, Int.mul_ediv_mul_of_pos _ _ (by norm_num : (0:Int) < 10)]
    rw [hq1]
    have hq2 : (a.val * 1000000 / b.val).tdiv FULL_FIXED_PRECISION_MULTIPLIER = Q := by
      unfold FULL_FIXED_PRECISION_MULTIPLIER
      rw [Int.tdiv_eq_ediv (Int.ediv_nonneg (by positivity) (by omega)) (by norm_num)]
      rw [ediv_ediv_of_pos _ hb (by norm_num : (0:Int) < 10)]
      have e1 : a.val * 1000000 = 10 * (a.val * 100000) := by ring
      have e2 : b.val * 10 = 10 * b.val := by ring
      rw [e1, e2, Int.mul_ediv_mul_of_pos _ _ (by norm_num : (0:Int) < 10)]
    rw [hq2]
    rw [wrap64_eq_self (by unfold i64Min; omega) (by unfold i64Max; omega)]
  have hmulval : (Fixed.mul ⟨Q⟩ b).val = R := by
    unfold Fixed.mul Fixed.ofFullFixed FullFixed.mul FullFixed.ofFixed
    dsimp only
    have hy : wrap128 (Q * FULL_FIXED_PRECISION_MULTIPLIER *
        (b.val * FULL_FIXED_PRECISION_MULTIPLIER)) = 100 * (Q * b.val) := by
      unfold FULL_FIXED_PRECISION_MULTIPLIER
      have e : Q * 10 * (b.val * 10) = 100 * (Q * b.val) := by ring
      rw [e]
      apply wrap128_eq_self
      · unfold i128Min
        omega
      · unfold i128Max
        omega
    rw [hy]
    have hm1 : (100 * (Q * b.val)).tdiv FULL_FIXED_DECIMAL = Q * b.val / 10000 := by
      unfold FULL_FIXED_DECIMAL FIXED_DECIMAL FULL_FIXED_PRECISION_MULTIPLIER
      rw [Int.tdiv_eq_ediv (by omega) (by norm_num)]
      have e2 : (100000 * 10 : Int) = 100 * 10000 := by norm_num
      rw [e2, Int.mul_ediv_mul_of_pos _ _ (by norm_num : (0:Int) < 100)]
    rw [hm1]
    have hm2 : (Q * b.val / 10000).tdiv FULL_FIXED_PRECISION_MULTIPLIER = R := by
      unfold FULL_FIXED_PRECISION_MULTIPLIER
      rw [Int.tdiv_eq_ediv (Int.ediv_nonneg hQBnn (by norm_num)) (by norm_num)]
      rw [ediv_ediv_of_pos _ (by norm_num : (0:Int) < 10000) (by norm_num : (0:Int) < 10)]
      norm_num
    rw [hm2]
    exact wrap64_eq_self (by unfold i64Min; omega) (by unfold i64Max; omega)
  exact ⟨⟨Q⟩, hdivval, by rw [hmulval]; exact hRa, by rw [hmulval]; exact hRa1⟩

/-- C7 amended witness: `a = Fixed::from(2)` divided by `b = Fixed(50000)`
(one half) and multiplied back gives exactly `a`. -/
theorem C7_witness :
    ((0 : Int) < 200000 ∧ (200000 : Int) ≤ i64Max ∧
      (0 : Int) < 50000 ∧ (50000 : Int) ≤ FIXED_DECIMAL ∧
      (200000 : Int) * FIXED_DECIMAL ≤ i64Max * 50000) ∧
    (∃ q : Fixed, Fixed.div ⟨200000⟩ ⟨50000⟩ = some q ∧
      (Fixed.mul q ⟨50000⟩).val ≤ (200000 : Int) ∧
      (200000 : Int) - (Fixed.mul q ⟨50000⟩).val ≤ 1) :=
  ⟨by decide,
    C7_roundtrip_within_one_ulp ⟨200000⟩ ⟨50000⟩
      (by decide) (by decide) (by decide) (by decide) (by decide)⟩

end Integrator
